import Mathlib

/-
Verification of the Tracer rendering core (wermos/Tracer) against its
natural-language specification.

Shallow embedding conventions:
- The C++ Float type is modelled as the real numbers.
- C++ int is modelled as the integers; a float-to-int static_cast is
  modelled as truncation toward zero, per the C++ standard.
- Fallible operations (scene intersection, material scattering) return
  Option values, mirroring the bool-plus-out-parameter C++ idiom.
- The positive float infinity passed as tMax is modelled with WithTop.
-/

namespace Tracer

/-- Modelled from the spec: vec3.hpp is not under src/; the spec treats
vector arithmetic as a given numeric library with standard operations
(add, scale, length, normalize). A 3D vector of real components. -/
structure vec3 where
  x : ℝ
  y : ℝ
  z : ℝ

/-- Modelled from the spec: Euclidean length of a vector, a standard
operation of the out-of-scope numeric library. -/
noncomputable def vec3.length (v : vec3) : ℝ :=
  Real.sqrt (v.x ^ 2 + v.y ^ 2 + v.z ^ 2)

/-- Modelled from the spec: normalization ("unitVector" in main.cxx),
dividing each component by the length. -/
noncomputable def unitVector (v : vec3) : vec3 :=
  ⟨v.x / v.length, v.y / v.length, v.z / v.length⟩

/-- Modelled from the spec: ray.hpp is not under src/; the spec describes
a ray as an origin point plus a direction vector. -/
structure ray where
  orig : vec3
  dir : vec3

/-- Accessor mirroring ray::direction() used by rayColor. -/
def ray.direction (r : ray) : vec3 := r.dir

/-- Translation of class color (src/utilities/include/color.hpp): the
private member Float m_color[3] becomes three real fields, index 0/1/2. -/
structure color where
  c0 : ℝ
  c1 : ℝ
  c2 : ℝ

/-- Translation of color::raw_r (color.hpp line 15): returns m_color[0]. -/
def color.raw_r (c : color) : ℝ := c.c0

/-- Translation of color::raw_g (color.hpp line 19): returns m_color[1]. -/
def color.raw_g (c : color) : ℝ := c.c1

/-- Translation of color::raw_b (color.hpp line 23): returns m_color[2]. -/
def color.raw_b (c : color) : ℝ := c.c2

/-- C++ float-to-int static_cast: truncation toward zero (floor for
non-negative values, ceiling for negative ones). -/
noncomputable def castInt (x : ℝ) : ℤ :=
  if 0 ≤ x then ⌊x⌋ else ⌈x⌉

/-- Translation of color::r (color.hpp line 27): the max parameter is
present in the signature but unused; returns static_cast of
255.0 times m_color[0]. -/
noncomputable def color.r (c : color) (max : ℝ) : ℤ := castInt (255 * c.c0)

/-- Translation of color::g (color.hpp line 31). -/
noncomputable def color.g (c : color) (max : ℝ) : ℤ := castInt (255 * c.c1)

/-- Translation of color::b (color.hpp line 35). -/
noncomputable def color.b (c : color) (max : ℝ) : ℤ := castInt (255 * c.c2)

/-- Translation of color::operator+= (color.hpp lines 39-44): adds the
argument componentwise into the receiver; the updated receiver is the
returned value. -/
noncomputable def color.plusEq (c d : color) : color :=
  ⟨c.c0 + d.c0, c.c1 + d.c1, c.c2 + d.c2⟩

/-- Modelled from the spec: friend operator+ is declared in color.hpp but
its body is not under src/; the spec gives the numeric library standard
componentwise addition. -/
noncomputable instance : Add color := ⟨fun u v => ⟨u.c0 + v.c0, u.c1 + v.c1, u.c2 + v.c2⟩⟩

/-- Modelled from the spec: friend operator*(color, color) is declared in
color.hpp but its body is not under src/; the spec says attenuation
multiplies a color componentwise. -/
noncomputable instance : Mul color := ⟨fun u v => ⟨u.c0 * v.c0, u.c1 * v.c1, u.c2 * v.c2⟩⟩

/-- Modelled from the spec: friend operator*(Float, color) is declared in
color.hpp but its body is not under src/; standard scalar scaling. -/
noncomputable instance : HMul ℝ color color := ⟨fun t c => ⟨t * c.c0, t * c.c1, t * c.c2⟩⟩

/-- Translation of color::clamp (color.hpp lines 91-99): below min gives
min, above max gives max, otherwise the value itself. -/
noncomputable def color.clamp (x min max : ℝ) : ℝ :=
  if x < min then min else if x > max then max else x

/-- Modelled from the spec: color::combine is declared in color.hpp
(line 46) but its body is not under src/. Spec section 4.5: "After N
samples, normalize (divide by N, then gamma-correct by square-root and
clamp to [0,1] - combine step)". Applied to each component. -/
noncomputable def color.combine (c : color) (samplesPerPixel : ℤ) : color :=
  ⟨color.clamp (Real.sqrt (c.c0 / samplesPerPixel)) 0 1,
   color.clamp (Real.sqrt (c.c1 / samplesPerPixel)) 0 1,
   color.clamp (Real.sqrt (c.c2 / samplesPerPixel)) 0 1⟩

/-- State of the function-local static objects inside
color::randomFloat(min, max) (color.hpp lines 68-78): the
uniform_real_distribution is a static local, so it is constructed once,
from the bounds of the first call, and reused by every later call. The
field holds the bounds the distribution was constructed with, or none
before the first call. -/
structure RandomFloatState where
  dist : Option (ℝ × ℝ)

/-- Translation of color::randomFloat(min, max) (color.hpp lines 68-78).
The static distribution is initialized from (min, max) only on the first
call; afterwards the stored bounds are used and the arguments are
ignored. A uniform_real_distribution draw is modelled as lo + u*(hi-lo)
where u in [0,1] abstracts the generator output. Returns the drawn value
and the updated static state. -/
noncomputable def color.randomFloat (min max u : ℝ) (s : RandomFloatState) :
    ℝ × RandomFloatState :=
  match s.dist with
  | some (lo, hi) => (lo + u * (hi - lo), s)
  | none => (min + u * (max - min), ⟨some (min, max)⟩)

/-- Modelled from the spec: shared/hitRecord.hpp is not under src/; spec
section 3 gives the HitRecord fields hit point, outward surface normal
and ray parameter t (the material reference is kept separately below so
that materials need not mention the record type recursively). -/
structure HitRecordData where
  p : vec3
  normal : vec3
  t : ℝ

/-- Modelled from the spec: material.hpp is not under src/; spec section
4.2 gives the contract scatter(incomingRay, hitRecord) -> optional
(attenuationColor, outgoingRay), where returning nothing means the ray
is absorbed. -/
structure Material where
  scatter : ray → HitRecordData → Option (color × ray)

/-- The full hit record as used by rayColor: geometric data plus the
non-owning reference to the material of the hit primitive. -/
structure HitRecord where
  data : HitRecordData
  material : Material

/-- The scene interface: HittableObject::hit (src/unnamed/part_000) is
virtual bool hit(ray, tMin, tMax, HitRecord&); hittableList.hpp itself is
not under src/, so the aggregate is kept abstract as its hit function,
returning the record on success. tMin and tMax are Float values that may
be the positive infinity constant, modelled with WithTop. -/
structure HittableList where
  hit : ray → WithTop ℝ → WithTop ℝ → Option HitRecord

/-- The infinity constant from utility.hpp passed as tMax in rayColor. -/
def infinityF : WithTop ℝ := ⊤

/-- Translation of rayColor (src/Tracer/src/main.cxx lines 38-67):
bounce budget exhausted gives black; otherwise query the scene on
(0.001, infinity); on a hit, scatter and either recurse multiplying by
the attenuation, or return black on absorption; on a miss, return the
white-to-sky-blue background gradient driven by the normalized y
component of the ray direction. -/
noncomputable def rayColor (r : ray) (world : HittableList) (depth : ℤ) : color :=
  if _h : depth ≤ 0 then
    color.mk 0 0 0
  else
    match world.hit r ((0.001 : ℝ) : WithTop ℝ) infinityF with
    | some record =>
      match record.material.scatter r record.data with
      | some (attenuation, scattered) =>
          attenuation * rayColor scattered world (depth - 1)
      | none => color.mk 0 0 0
    | none =>
      let unitDirection := unitVector r.direction
      let t : ℝ := 0.5 * (unitDirection.y + 1.0)
      (1.0 - t) * color.mk 1.0 1.0 1.0 + t * color.mk 0.5 0.7 1.0
termination_by depth.toNat
decreasing_by
  simp_wf
  omega

/-- Translation of the row loop of render (main.cxx lines 72-74): while
the counter is positive, run one row iteration and decrement. Returns
how many row iterations one worker performs on its counter value. Each
worker receives its own counter: the std::atomic int parameter of render
(line 69) is declared by value, and line 136 passes a copy to each
thread, so no worker observes the decrements of another worker. -/
def renderIters (scanLinesLeft : ℤ) : ℕ :=
  if _h : 0 < scanLinesLeft then renderIters (scanLinesLeft - 1) + 1 else 0
termination_by scanLinesLeft.toNat
decreasing_by
  simp_wf
  omega

/-- Translation of main.cxx line 132: the scanline counter starts at
imageHeight - 1. -/
def scanLinesLeftInit (imageHeight : ℤ) : ℤ := imageHeight - 1

/-- Total row iterations performed across the pool (main.cxx lines
135-139): every one of the numThreads workers runs render on its own
copy of the counter, so the totals just add up. -/
def totalRowClaims (numWorkers : ℕ) (init : ℤ) : ℕ :=
  numWorkers * renderIters init

/-- Translation of main.cxx line 129: the pool size is exactly what
std::thread::hardware_concurrency() reports, with no lower clamp. -/
def numThreads (hardwareConcurrency : ℕ) : ℕ := hardwareConcurrency

/-- The per-pixel accumulation of render (main.cxx lines 77-85): the
pixel color starts from the default constructor color() = (0,0,0) and
each sample is added in with operator+=. The list holds the sample
colors returned by rayColor. -/
noncomputable def pixelColorAccum (samples : List color) : color :=
  samples.foldl color.plusEq (color.mk 0 0 0)

/-- The per-pixel pipeline of render (main.cxx lines 77-91): accumulate
the samples, then combine once with samplesPerPixel. -/
noncomputable def processPixel (samples : List color) (samplesPerPixel : ℤ) : color :=
  (pixelColorAccum samples).combine samplesPerPixel

/-- The emissions of one pixel (main.cxx lines 89-91): the combined
pixel color is handed to the ppm writer, the PNG buffer and the JPG
buffer, in that order; all three receive the same finished value. -/
noncomputable def emitPixel (samples : List color) (samplesPerPixel : ℤ) :
    color × color × color :=
  let p := processPixel samples samplesPerPixel
  (p, p, p)

/-- A material that always absorbs: scatter returns nothing. -/
def absorbMaterial : Material := ⟨fun _ _ => none⟩

/-- A concrete hit record carried by the always-hitting test scene. -/
def absorbRecord : HitRecord :=
  ⟨⟨⟨0, 0, 0⟩, ⟨0, 0, 1⟩, 1⟩, absorbMaterial⟩

/-- A scene whose hit query always succeeds with absorbRecord. -/
def absorbWorld : HittableList := ⟨fun _ _ _ => some absorbRecord⟩

/-- A scene containing nothing: every hit query misses. -/
def emptyWorld : HittableList := ⟨fun _ _ _ => none⟩

/-- A ray pointing straight up. -/
def upRay : ray := ⟨⟨0, 0, 0⟩, ⟨0, 1, 0⟩⟩

/-- A ray along the negative viewing axis, with y component zero. -/
def flatRay : ray := ⟨⟨0, 0, 0⟩, ⟨0, 0, -1⟩⟩

/-- Componentwise non-negativity of a color. -/
def color.nonneg (c : color) : Prop := 0 ≤ c.c0 ∧ 0 ≤ c.c1 ∧ 0 ≤ c.c2

/-- A scene all of whose reachable material attenuations are
componentwise non-negative. -/
def HittableList.attenuationsNonneg (world : HittableList) : Prop :=
  ∀ (r : ray) (tMin tMax : WithTop ℝ) (record : HitRecord),
    world.hit r tMin tMax = some record →
    ∀ (rin : ray) (att : color) (sc : ray),
      record.material.scatter rin record.data = some (att, sc) → att.nonneg

@[simp] lemma color.add_def (u v : color) :
    u + v = ⟨u.c0 + v.c0, u.c1 + v.c1, u.c2 + v.c2⟩ := rfl

@[simp] lemma color.mul_def (u v : color) :
    u * v = ⟨u.c0 * v.c0, u.c1 * v.c1, u.c2 * v.c2⟩ := rfl

@[simp] lemma color.smul_def (t : ℝ) (c : color) :
    t * c = ⟨t * c.c0, t * c.c1, t * c.c2⟩ := rfl

lemma renderIters_eq_toNat (c : ℤ) : renderIters c = c.toNat := by
  rw [renderIters]
  split
  · rw [renderIters_eq_toNat (c - 1)]
    omega
  · omega
termination_by c.toNat
decreasing_by
  simp_wf
  omega

/-- Unfolding of rayColor for a positive bounce budget. -/
lemma rayColor_pos (r : ray) (world : HittableList) (d : ℤ) (hd : 0 < d) :
    rayColor r world d =
      match world.hit r ((0.001 : ℝ) : WithTop ℝ) infinityF with
      | some record =>
        match record.material.scatter r record.data with
        | some (attenuation, scattered) =>
            attenuation * rayColor scattered world (d - 1)
        | none => color.mk 0 0 0
      | none =>
        let unitDirection := unitVector r.direction
        let t : ℝ := 0.5 * (unitDirection.y + 1.0)
        (1.0 - t) * color.mk 1.0 1.0 1.0 + t * color.mk 0.5 0.7 1.0 := by
  rw [rayColor]
  rw [dif_neg (not_le.mpr hd)]

/-- Claim C1: the claim requires one genuinely shared scanline counter
with an atomic decrement-and-read so that each row is claimed exactly
once; the code instead hands every worker a by-value copy of the
counter. Evaluated at the failing input of two workers and image height
3: the two private copies each drive imageHeight - 1 = 2 row
iterations, so 4 row claims happen for a 3-row image, and rows cannot
each be claimed exactly once. -/
theorem claim_C1_counter_copies :
    totalRowClaims 2 (scanLinesLeftInit 3) = 4 ∧ (4 : ℕ) ≠ 3 := by
  refine ⟨?_, by decide⟩
  rw [totalRowClaims, renderIters_eq_toNat]
  rfl

/-- Claim C2: the claim says a complete run covers every row index 0 to
imageHeight - 1; the code initializes the counter to imageHeight - 1,
so even a single sequential worker performs only imageHeight - 1 = 2
row iterations for a 3-row image, and the image cannot be fully
covered. -/
theorem claim_C2_row_coverage_gap :
    renderIters (scanLinesLeftInit 3) = 2 ∧ (2 : ℕ) < 3 := by
  refine ⟨?_, by decide⟩
  rw [renderIters_eq_toNat]
  rfl

/-- Claim C4: with bounce budget at most zero, rayColor returns exactly
black, for every ray and scene. -/
theorem claim_C4_exhausted_black (r : ray) (world : HittableList) (d : ℤ)
    (hd : d ≤ 0) : rayColor r world d = color.mk 0 0 0 := by
  rw [rayColor]
  rw [dif_pos hd]

/-- Witness for claim C4 at depth 0 with a concrete ray and scene. -/
theorem claim_C4_witness :
    (0 : ℤ) ≤ 0 ∧ rayColor upRay emptyWorld 0 = color.mk 0 0 0 :=
  ⟨le_refl 0, claim_C4_exhausted_black upRay emptyWorld 0 (le_refl 0)⟩

/-- Claim C8: the claim says the pool is defensively clamped to at
least one worker; the code sizes the pool to exactly the reported
hardware concurrency, so a report of zero yields zero workers and the
scheduler loop never runs. -/
theorem claim_C8_zero_workers :
    numThreads 0 = 0 ∧ ¬ 1 ≤ numThreads 0 := by
  decide

/-- Claim C10: the claim says every call to randomFloat(min, max) stays
inside the [min, max] passed to that call; because the distribution is
a function-local static, a first call with bounds (0, 1) freezes those
bounds, and a later call with bounds (5, 6) can return 0, outside
[5, 6]. -/
theorem claim_C10_stale_bounds :
    (color.randomFloat 5 6 0
        (color.randomFloat 0 1 (1 / 2) ⟨none⟩).2).1 = 0 ∧
    ¬ (5 : ℝ) ≤ (color.randomFloat 5 6 0
        (color.randomFloat 0 1 (1 / 2) ⟨none⟩).2).1 := by
  constructor
  · simp [color.randomFloat]
  · simp [color.randomFloat]

/-- Unfolding of rayColor when the scene query hits. -/
lemma rayColor_hit (r : ray) (world : HittableList) (d : ℤ) (hd : 0 < d)
    (record : HitRecord)
    (hhit : world.hit r ((0.001 : ℝ) : WithTop ℝ) infinityF = some record) :
    rayColor r world d =
      match record.material.scatter r record.data with
      | some (attenuation, scattered) =>
          attenuation * rayColor scattered world (d - 1)
      | none => color.mk 0 0 0 := by
  rw [rayColor_pos r world d hd, hhit]

/-- Unfolding of rayColor when the scene query misses. -/
lemma rayColor_miss (r : ray) (world : HittableList) (d : ℤ) (hd : 0 < d)
    (hmiss : world.hit r ((0.001 : ℝ) : WithTop ℝ) infinityF = none) :
    rayColor r world d =
      (1 - 0.5 * ((unitVector r.direction).y + 1)) * color.mk 1 1 1
        + (0.5 * ((unitVector r.direction).y + 1)) * color.mk 0.5 0.7 1 := by
  rw [rayColor_pos r world d hd, hmiss]
  norm_num

/-- Claim C3: with positive bounce budget, rayColor queries the scene
on the interval (0.001, infinity); if the hit succeeds, the result is
the attenuation multiplied componentwise with the recursive call at
budget d - 1 when scatter succeeds, and black when scatter fails. -/
theorem claim_C3_hit_dispatch (r : ray) (world : HittableList) (d : ℤ)
    (hd : 0 < d) (record : HitRecord)
    (hhit : world.hit r ((0.001 : ℝ) : WithTop ℝ) infinityF = some record) :
    rayColor r world d =
      match record.material.scatter r record.data with
      | some (attenuation, scattered) =>
          attenuation * rayColor scattered world (d - 1)
      | none => color.mk 0 0 0 :=
  rayColor_hit r world d hd record hhit

/-- Witness for claim C3 on a scene that always hits with an absorbing
material, at bounce budget 1. -/
theorem claim_C3_witness :
    (0 : ℤ) < 1 ∧
    absorbWorld.hit upRay ((0.001 : ℝ) : WithTop ℝ) infinityF =
      some absorbRecord ∧
    rayColor upRay absorbWorld 1 =
      match absorbRecord.material.scatter upRay absorbRecord.data with
      | some (attenuation, scattered) =>
          attenuation * rayColor scattered absorbWorld 0
      | none => color.mk 0 0 0 :=
  ⟨by decide, rfl,
    claim_C3_hit_dispatch upRay absorbWorld 1 (by decide) absorbRecord rfl⟩

/-- Claim C5: on a miss of the scene query, rayColor returns the
white-to-sky-blue gradient driven by the normalized y component of the
ray direction; concretely, a straight-up ray against the empty scene
gives (0.5, 0.7, 1.0) and a ray with zero y component gives
(0.75, 0.85, 1.0). -/
theorem claim_C5_background (r : ray) (world : HittableList) (d : ℤ)
    (hd : 0 < d)
    (hmiss : world.hit r ((0.001 : ℝ) : WithTop ℝ) infinityF = none) :
    rayColor r world d =
      (1 - 0.5 * ((unitVector r.direction).y + 1)) * color.mk 1 1 1
        + (0.5 * ((unitVector r.direction).y + 1)) * color.mk 0.5 0.7 1
    ∧ rayColor upRay emptyWorld d = color.mk 0.5 0.7 1
    ∧ rayColor flatRay emptyWorld d = color.mk 0.75 0.85 1 := by
  have hup : unitVector upRay.direction = ⟨0, 1, 0⟩ := by
    rw [unitVector]
    rw [show upRay.direction = ⟨0, 1, 0⟩ from rfl]
    rw [vec3.length]
    norm_num
  have hflat : unitVector flatRay.direction = ⟨0, 0, -1⟩ := by
    rw [unitVector]
    rw [show flatRay.direction = ⟨0, 0, -1⟩ from rfl]
    rw [vec3.length]
    norm_num
  refine ⟨?_, ?_, ?_⟩
  · exact rayColor_miss r world d hd hmiss
  · rw [rayColor_pos upRay emptyWorld d hd,
      show emptyWorld.hit upRay ((0.001 : ℝ) : WithTop ℝ) infinityF = none
        from rfl]
    rw [hup]
    simp
    norm_num
  · rw [rayColor_pos flatRay emptyWorld d hd,
      show emptyWorld.hit flatRay ((0.001 : ℝ) : WithTop ℝ) infinityF = none
        from rfl]
    rw [hflat]
    simp
    norm_num

/-- Witness for claim C5 at the straight-up ray against the empty
scene with bounce budget 1. -/
theorem claim_C5_witness :
    (0 : ℤ) < 1 ∧
    emptyWorld.hit upRay ((0.001 : ℝ) : WithTop ℝ) infinityF = none ∧
    (rayColor upRay emptyWorld 1 =
      (1 - 0.5 * ((unitVector upRay.direction).y + 1)) * color.mk 1 1 1
        + (0.5 * ((unitVector upRay.direction).y + 1)) * color.mk 0.5 0.7 1
    ∧ rayColor upRay emptyWorld 1 = color.mk 0.5 0.7 1
    ∧ rayColor flatRay emptyWorld 1 = color.mk 0.75 0.85 1) :=
  ⟨by decide, rfl, claim_C5_background upRay emptyWorld 1 (by decide) rfl⟩

@[simp] lemma unitVector_y (v : vec3) : (unitVector v).y = v.y / v.length :=
  rfl

/-- The y component of a normalized vector lies in [-1, 1]; when the
length is zero the division yields zero, which is also in range. -/
lemma unitVector_y_bounds (v : vec3) :
    -1 ≤ (unitVector v).y ∧ (unitVector v).y ≤ 1 := by
  have hL : 0 ≤ v.length := Real.sqrt_nonneg _
  have habs : |v.y| ≤ v.length := by
    rw [vec3.length]
    calc |v.y| = Real.sqrt (v.y ^ 2) := (Real.sqrt_sq_eq_abs v.y).symm
    _ ≤ Real.sqrt (v.x ^ 2 + v.y ^ 2 + v.z ^ 2) :=
        Real.sqrt_le_sqrt (by nlinarith [sq_nonneg v.x, sq_nonneg v.z])
  rcases eq_or_lt_of_le hL with h | h
  · rw [unitVector_y, ← h, div_zero]
    norm_num
  · have hone : |(unitVector v).y| ≤ 1 := by
      rw [unitVector_y, abs_div, abs_of_pos h]
      exact (div_le_one h).mpr habs
    exact abs_le.mp hone

/-- Non-negativity of rayColor, proved by induction on a fuel bound for
the bounce budget. -/
lemma rayColor_nonneg_fuel (world : HittableList)
    (hw : world.attenuationsNonneg) :
    ∀ (n : ℕ) (d : ℤ), d.toNat ≤ n → ∀ r : ray, (rayColor r world d).nonneg := by
  intro n
  induction n with
  | zero =>
    intro d hdn r
    have hd0 : d ≤ 0 := by omega
    rw [rayColor, dif_pos hd0]
    exact ⟨le_refl 0, le_refl 0, le_refl 0⟩
  | succ n ih =>
    intro d hdn r
    by_cases hd : d ≤ 0
    · rw [rayColor, dif_pos hd]
      exact ⟨le_refl 0, le_refl 0, le_refl 0⟩
    · have hdpos : 0 < d := not_le.mp hd
      cases hhit : world.hit r ((0.001 : ℝ) : WithTop ℝ) infinityF with
      | none =>
        rw [rayColor_miss r world d hdpos hhit]
        obtain ⟨hy1, hy2⟩ := unitVector_y_bounds r.direction
        refine ⟨?_, ?_, ?_⟩ <;>
          · simp only [color.smul_def, color.add_def]
            nlinarith [hy1, hy2]
      | some record =>
        rw [rayColor_hit r world d hdpos record hhit]
        cases hscat : record.material.scatter r record.data with
        | none => exact ⟨le_refl 0, le_refl 0, le_refl 0⟩
        | some p =>
          obtain ⟨att, sc⟩ := p
          have hatt : att.nonneg := hw r _ _ record hhit r att sc hscat
          have hrec : (rayColor sc world (d - 1)).nonneg :=
            ih (d - 1) (by omega) sc
          exact ⟨mul_nonneg hatt.1 hrec.1, mul_nonneg hatt.2.1 hrec.2.1,
            mul_nonneg hatt.2.2 hrec.2.2⟩

/-- Folding operator+= over non-negative sample colors preserves
non-negative components of the accumulator. -/
lemma foldl_plusEq_nonneg (f : ray → color) (hf : ∀ rr : ray, (f rr).nonneg) :
    ∀ (rays : List ray) (acc : color), acc.nonneg →
      (rays.foldl (fun a rr => a.plusEq (f rr)) acc).nonneg := by
  intro rays
  induction rays with
  | nil =>
    intro acc hacc
    simpa using hacc
  | cons head tail ih =>
    intro acc hacc
    rw [List.foldl_cons]
    refine ih _ ?_
    obtain ⟨a0, a1, a2⟩ := hacc
    obtain ⟨b0, b1, b2⟩ := hf head
    exact ⟨add_nonneg a0 b0, add_nonneg a1 b1, add_nonneg a2 b2⟩

/-- Claim C6: when every material attenuation reachable in the scene is
componentwise non-negative, rayColor always returns a color with
non-negative components, and the per-pixel accumulation of such sample
colors through operator+= keeps non-negative components throughout. -/
theorem claim_C6_nonneg (world : HittableList)
    (hw : world.attenuationsNonneg) :
    (∀ (r : ray) (d : ℤ), (rayColor r world d).nonneg) ∧
    (∀ (d : ℤ) (rays : List ray),
      (rays.foldl (fun acc rr => acc.plusEq (rayColor rr world d))
        (color.mk 0 0 0)).nonneg) := by
  have hmain : ∀ (r : ray) (d : ℤ), (rayColor r world d).nonneg := fun r d =>
    rayColor_nonneg_fuel world hw d.toNat d (le_refl _) r
  refine ⟨hmain, fun d rays => ?_⟩
  exact foldl_plusEq_nonneg (fun rr => rayColor rr world d)
    (fun rr => hmain rr d) rays (color.mk 0 0 0)
    ⟨le_refl 0, le_refl 0, le_refl 0⟩

/-- Witness for claim C6 on the empty scene, whose attenuation
condition holds vacuously. -/
theorem claim_C6_witness :
    emptyWorld.attenuationsNonneg ∧
    ((∀ (r : ray) (d : ℤ), (rayColor r emptyWorld d).nonneg) ∧
     (∀ (d : ℤ) (rays : List ray),
       (rays.foldl (fun acc rr => acc.plusEq (rayColor rr emptyWorld d))
         (color.mk 0 0 0)).nonneg)) := by
  have hw : emptyWorld.attenuationsNonneg := by
    intro r tMin tMax record h
    exact Option.noConfusion h
  exact ⟨hw, claim_C6_nonneg emptyWorld hw⟩

/-- Clamping to [0, 1] lands in [0, 1]. -/
lemma clamp01_mem (x : ℝ) :
    0 ≤ color.clamp x 0 1 ∧ color.clamp x 0 1 ≤ 1 := by
  rw [color.clamp]
  split_ifs with h1 h2
  · norm_num
  · norm_num
  · exact ⟨not_lt.mp h1, not_lt.mp h2⟩

/-- Claim C7: combine divides each component by the sample count, takes
the square root, and clamps to [0, 1]; the result lies in [0, 1] per
component; in the render pipeline this happens exactly once per pixel,
after the accumulation of the samples, and the combined value is what
reaches all three writers. -/
theorem claim_C7_combine (c : color) (N : ℤ) (hN : 1 ≤ N)
    (samples : List color) :
    c.combine N =
      ⟨color.clamp (Real.sqrt (c.c0 / N)) 0 1,
       color.clamp (Real.sqrt (c.c1 / N)) 0 1,
       color.clamp (Real.sqrt (c.c2 / N)) 0 1⟩ ∧
    (0 ≤ (c.combine N).c0 ∧ (c.combine N).c0 ≤ 1) ∧
    (0 ≤ (c.combine N).c1 ∧ (c.combine N).c1 ≤ 1) ∧
    (0 ≤ (c.combine N).c2 ∧ (c.combine N).c2 ≤ 1) ∧
    processPixel samples N = (pixelColorAccum samples).combine N ∧
    emitPixel samples N =
      (processPixel samples N, processPixel samples N, processPixel samples N) :=
  ⟨rfl, clamp01_mem _, clamp01_mem _, clamp01_mem _, rfl, rfl⟩

/-- Witness for claim C7 at one sample and the zero accumulator. -/
theorem claim_C7_witness :
    (1 : ℤ) ≤ 1 ∧
    ((color.mk 0 0 0).combine 1 =
      ⟨color.clamp (Real.sqrt ((color.mk 0 0 0).c0 / (1 : ℤ))) 0 1,
       color.clamp (Real.sqrt ((color.mk 0 0 0).c1 / (1 : ℤ))) 0 1,
       color.clamp (Real.sqrt ((color.mk 0 0 0).c2 / (1 : ℤ))) 0 1⟩ ∧
     (0 ≤ ((color.mk 0 0 0).combine 1).c0 ∧
       ((color.mk 0 0 0).combine 1).c0 ≤ 1) ∧
     (0 ≤ ((color.mk 0 0 0).combine 1).c1 ∧
       ((color.mk 0 0 0).combine 1).c1 ≤ 1) ∧
     (0 ≤ ((color.mk 0 0 0).combine 1).c2 ∧
       ((color.mk 0 0 0).combine 1).c2 ≤ 1) ∧
     processPixel [] 1 = (pixelColorAccum []).combine 1 ∧
     emitPixel [] 1 = (processPixel [] 1, processPixel [] 1, processPixel [] 1)) :=
  ⟨le_refl 1, claim_C7_combine (color.mk 0 0 0) 1 (le_refl 1) []⟩

/-- Counterexample to claim C9 as stated: the color with red component
-1/510 has a negative component, yet the accessor returns 0, not a
negative integer, because the float-to-int cast truncates toward
zero. -/
theorem claim_C9_counterexample :
    (color.mk (-(1 / 510)) 0 0).raw_r < 0 ∧
    (color.mk (-(1 / 510)) 0 0).r 255 = 0 ∧
    ¬ (color.mk (-(1 / 510)) 0 0).r 255 < 0 := by
  have hval : (color.mk (-(1 / 510)) 0 0).r 255 = 0 := by
    rw [color.r, castInt]
    rw [if_neg (by norm_num)]
    rw [Int.ceil_eq_zero_iff]
    constructor <;> norm_num
  refine ⟨by norm_num [color.raw_r], hval, by rw [hval]; omega⟩

/-- Strictly large components push the truncated cast above 255. -/
lemma castInt_above {x : ℝ} (h : 256 / 255 ≤ x) : 255 < castInt (255 * x) := by
  have h1 : (256 : ℝ) ≤ 255 * x := by nlinarith
  rw [castInt, if_pos (by linarith : (0 : ℝ) ≤ 255 * x)]
  have h2 : (256 : ℤ) ≤ ⌊255 * x⌋ := Int.le_floor.mpr (by push_cast; linarith)
  omega

/-- Sufficiently negative components push the truncated cast below
zero. -/
lemma castInt_below {x : ℝ} (h : x ≤ -(1 / 255)) : castInt (255 * x) < 0 := by
  have h1 : 255 * x ≤ -1 := by nlinarith
  rw [castInt, if_neg (by push_neg; linarith : ¬ (0 : ℝ) ≤ 255 * x)]
  have h2 : ⌈255 * x⌉ ≤ ⌈(-1 : ℝ)⌉ := Int.ceil_mono h1
  have h3 : ⌈(-1 : ℝ)⌉ = -1 := by
    rw [show ((-1 : ℝ)) = ((-1 : ℤ) : ℝ) by norm_num, Int.ceil_intCast]
  omega

/-- Claim C9 amended: the channel accessors ignore the max argument and
return the toward-zero truncation of 255 times the raw component, with
no clamping; a component of at least 256/255 maps above 255 and a
component of at most -1/255 maps to a negative integer. -/
theorem claim_C9_accessors (c : color) (max1 max2 : ℝ) :
    (c.r max1 = c.r max2 ∧ c.g max1 = c.g max2 ∧ c.b max1 = c.b max2) ∧
    (c.r max1 = castInt (255 * c.raw_r) ∧
     c.g max1 = castInt (255 * c.raw_g) ∧
     c.b max1 = castInt (255 * c.raw_b)) ∧
    (256 / 255 ≤ c.raw_r → 255 < c.r max1) ∧
    (c.raw_r ≤ -(1 / 255) → c.r max1 < 0) ∧
    (256 / 255 ≤ c.raw_g → 255 < c.g max1) ∧
    (c.raw_g ≤ -(1 / 255) → c.g max1 < 0) ∧
    (256 / 255 ≤ c.raw_b → 255 < c.b max1) ∧
    (c.raw_b ≤ -(1 / 255) → c.b max1 < 0) :=
  ⟨⟨rfl, rfl, rfl⟩, ⟨rfl, rfl, rfl⟩,
    fun h => castInt_above h, fun h => castInt_below h,
    fun h => castInt_above h, fun h => castInt_below h,
    fun h => castInt_above h, fun h => castInt_below h⟩

/-- Witness for the amended claim C9, exercising the above-255 case at
a red component of 2 with two different max arguments. -/
theorem claim_C9_witness :
    (256 / 255 : ℝ) ≤ (color.mk 2 (-1) 0).raw_r ∧
    255 < (color.mk 2 (-1) 0).r 0 :=
  ⟨by norm_num [color.raw_r],
    (claim_C9_accessors (color.mk 2 (-1) 0) 0 255).2.2.1
      (by norm_num [color.raw_r])⟩

end Tracer
